import Mathlib

/- Verification development for the streamdao payment-protocol SDK:
   shallow embedding of the binary stream-record codec (utils.ts /
   constants.ts) and of the SDK helpers (sdk.ts), with the semantics of
   the library primitives they call (buffer-layout struct decoding,
   bn.js big numbers, TextEncoder) spelled out explicitly.  Byte buffers
   are `List Nat`, JavaScript numbers are `ℚ` (exact arithmetic), bn.js
   big numbers are `ℤ`, and a thrown exception is `Option.none`. -/

namespace StreamSDK

/-- Little-endian unsigned interpretation of a byte list, as bn.js
`new BN(buffer, "le")` produces it. -/
def leBytes (bs : List Nat) : ℤ :=
  ((bs.foldr (fun b acc => b + 256 * acc) 0 : Nat) : ℤ)

/-- JavaScript `Boolean(-)` applied to a decoded flag field (a nonzero
byte value is truthy). -/
def jsBool (bs : List Nat) : Bool := decide (leBytes bs ≠ 0)

/-- A Solana public key as constructed by `new PublicKey(bytes)` from a
byte buffer of at most 32 bytes; the base-58 rendering used for display
is injective on these, so we keep the raw bytes. -/
structure PublicKey where
  bytes : List Nat

/-- One field declaration of the buffer-layout struct: either
`BufferLayout.blob(span, property)` or `BufferLayout.u8(property)`. -/
inductive LayoutField
  | blob (span : Nat) (property : String)
  | u8 (property : String)

def LayoutField.span : LayoutField → Nat
  | .blob n _ => n
  | .u8 _ => 1

def LayoutField.property : LayoutField → String
  | .blob _ p => p
  | .u8 p => p

/-- The `TokenStreamDataLayout` field table from utils.ts, in source
order. -/
def TokenStreamDataLayout : List LayoutField :=
  [ .blob 8 "magic",
    .blob 1 "version",
    .blob 8 "created_at",
    .blob 8 "withdrawn_amount",
    .blob 8 "canceled_at",
    .blob 8 "end_time",
    .blob 8 "last_withdrawn_at",
    .blob 32 "sender",
    .blob 32 "sender_tokens",
    .blob 32 "recipient",
    .blob 32 "recipient_tokens",
    .blob 32 "mint",
    .blob 32 "escrow_tokens",
    .blob 32 "streamdao_treasury",
    .blob 32 "streamdao_treasury_tokens",
    .blob 8 "streamdao_fee_total",
    .blob 8 "streamdao_fee_withdrawn",
    .blob 4 "streamdao_fee_percent",
    .blob 32 "partner",
    .blob 32 "partner_tokens",
    .blob 8 "partner_fee_total",
    .blob 8 "partner_fee_withdrawn",
    .blob 4 "partner_fee_percent",
    .blob 8 "start_time",
    .blob 8 "net_deposited_amount",
    .blob 8 "period",
    .blob 8 "amount_per_period",
    .blob 8 "cliff",
    .blob 8 "cliff_amount",
    .u8 "cancelable_by_sender",
    .u8 "cancelable_by_recipient",
    .u8 "automatic_withdrawal",
    .u8 "transferable_by_sender",
    .u8 "transferable_by_recipient",
    .u8 "can_topup",
    .blob 64 "stream_name",
    .blob 8 "withdraw_frequency" ]

/-- buffer-layout `Structure.decode`: walk the field list accumulating
the offset by each field's span.  A `blob` decodes via `Buffer.slice`,
which clamps out-of-range indices and never throws; a `u8` decodes via
`Buffer.readUIntLE`, which throws a `RangeError` (here: `none`) when the
byte at the offset is out of bounds. -/
def structDecode : List LayoutField → List Nat → Nat → Option (List (String × List Nat))
  | [], _, _ => some []
  | .blob n p :: fs, b, offset =>
      (structDecode fs b (offset + n)).map (fun rest => (p, (b.drop offset).take n) :: rest)
  | .u8 p :: fs, b, offset =>
      match b[offset]? with
      | none => none
      | some byte => (structDecode fs b (offset + 1)).map (fun rest => (p, [byte]) :: rest)

/-- The decoded entity built by `decodeStream` (the `DecodedStream`
shape from types.ts): bn.js values are `ℤ`, public keys keep their
bytes, the `end` field is renamed `endTime` (Lean keyword), and the
stream name keeps its UTF-8 bytes (the source runs them through a
non-fatal `TextDecoder`). -/
structure DecodedStream where
  magic : ℤ
  version : ℤ
  createdAt : ℤ
  withdrawnAmount : ℤ
  canceledAt : ℤ
  endTime : ℤ
  lastWithdrawnAt : ℤ
  sender : PublicKey
  senderTokens : PublicKey
  recipient : PublicKey
  recipientTokens : PublicKey
  mint : PublicKey
  escrowTokens : PublicKey
  streamdaoTreasury : PublicKey
  streamdaoTreasuryTokens : PublicKey
  streamdaoFeeTotal : ℤ
  streamdaoFeeWithdrawn : ℤ
  streamdaoFeePercent : ℤ
  partnerFeeTotal : ℤ
  partnerFeeWithdrawn : ℤ
  partnerFeePercent : ℤ
  partner : PublicKey
  partnerTokens : PublicKey
  start : ℤ
  depositedAmount : ℤ
  period : ℤ
  amountPerPeriod : ℤ
  cliff : ℤ
  cliffAmount : ℤ
  cancelableBySender : Bool
  cancelableByRecipient : Bool
  automaticWithdrawal : Bool
  transferableBySender : Bool
  transferableByRecipient : Bool
  canTopup : Bool
  name : List Nat
  withdrawalFrequency : ℤ

/-- `decodeStream` from utils.ts: run the layout's struct decode on the
buffer, then read off each property (`new BN(-, "le")` for integers,
`new PublicKey(-)` for keys, `Boolean(-)` for flags). -/
def decodeStream (buf : List Nat) : Option DecodedStream :=
  match structDecode TokenStreamDataLayout buf 0 with
  | some (("magic", magic) :: ("version", version) :: ("created_at", created_at) ::
      ("withdrawn_amount", withdrawn_amount) :: ("canceled_at", canceled_at) ::
      ("end_time", end_time) :: ("last_withdrawn_at", last_withdrawn_at) ::
      ("sender", sender) :: ("sender_tokens", sender_tokens) ::
      ("recipient", recipient) :: ("recipient_tokens", recipient_tokens) ::
      ("mint", mint) :: ("escrow_tokens", escrow_tokens) ::
      ("streamdao_treasury", streamdao_treasury) ::
      ("streamdao_treasury_tokens", streamdao_treasury_tokens) ::
      ("streamdao_fee_total", streamdao_fee_total) ::
      ("streamdao_fee_withdrawn", streamdao_fee_withdrawn) ::
      ("streamdao_fee_percent", streamdao_fee_percent) ::
      ("partner", partner) :: ("partner_tokens", partner_tokens) ::
      ("partner_fee_total", partner_fee_total) ::
      ("partner_fee_withdrawn", partner_fee_withdrawn) ::
      ("partner_fee_percent", partner_fee_percent) ::
      ("start_time", start_time) :: ("net_deposited_amount", net_deposited_amount) ::
      ("period", period) :: ("amount_per_period", amount_per_period) ::
      ("cliff", cliff) :: ("cliff_amount", cliff_amount) ::
      ("cancelable_by_sender", cancelable_by_sender) ::
      ("cancelable_by_recipient", cancelable_by_recipient) ::
      ("automatic_withdrawal", automatic_withdrawal) ::
      ("transferable_by_sender", transferable_by_sender) ::
      ("transferable_by_recipient", transferable_by_recipient) ::
      ("can_topup", can_topup) :: ("stream_name", stream_name) ::
      ("withdraw_frequency", withdraw_frequency) :: []) =>
    some {
      magic := leBytes magic
      version := leBytes version
      createdAt := leBytes created_at
      withdrawnAmount := leBytes withdrawn_amount
      canceledAt := leBytes canceled_at
      endTime := leBytes end_time
      lastWithdrawnAt := leBytes last_withdrawn_at
      sender := ⟨sender⟩
      senderTokens := ⟨sender_tokens⟩
      recipient := ⟨recipient⟩
      recipientTokens := ⟨recipient_tokens⟩
      mint := ⟨mint⟩
      escrowTokens := ⟨escrow_tokens⟩
      streamdaoTreasury := ⟨streamdao_treasury⟩
      streamdaoTreasuryTokens := ⟨streamdao_treasury_tokens⟩
      streamdaoFeeTotal := leBytes streamdao_fee_total
      streamdaoFeeWithdrawn := leBytes streamdao_fee_withdrawn
      streamdaoFeePercent := leBytes streamdao_fee_percent
      partnerFeeTotal := leBytes partner_fee_total
      partnerFeeWithdrawn := leBytes partner_fee_withdrawn
      partnerFeePercent := leBytes partner_fee_percent
      partner := ⟨partner⟩
      partnerTokens := ⟨partner_tokens⟩
      start := leBytes start_time
      depositedAmount := leBytes net_deposited_amount
      period := leBytes period
      amountPerPeriod := leBytes amount_per_period
      cliff := leBytes cliff
      cliffAmount := leBytes cliff_amount
      cancelableBySender := jsBool cancelable_by_sender
      cancelableByRecipient := jsBool cancelable_by_recipient
      automaticWithdrawal := jsBool automatic_withdrawal
      transferableBySender := jsBool transferable_by_sender
      transferableByRecipient := jsBool transferable_by_recipient
      canTopup := jsBool can_topup
      name := stream_name
      withdrawalFrequency := leBytes withdraw_frequency }
  | _ => none

/-- `STREAM_STRUCT_OFFSET_SENDER` from constants.ts. -/
def STREAM_STRUCT_OFFSET_SENDER : Nat := 49

/-- `STREAM_STRUCT_OFFSET_RECIPIENT` from constants.ts. -/
def STREAM_STRUCT_OFFSET_RECIPIENT : Nat := 113

/-- Byte offset at which a named field starts inside a buffer-layout
struct: the sum of the spans of the fields preceding it. -/
def offsetOf : List LayoutField → String → Option Nat
  | [], _ => none
  | f :: fs, p =>
      if f.property = p then some 0 else (offsetOf fs p).map (f.span + ·)

/-- The entity `decodeStream` produces on a sufficiently long buffer:
every field is read at the fixed offset obtained by summing the spans of
the fields that precede it in `TokenStreamDataLayout`. -/
def decodedOf (buf : List Nat) : DecodedStream where
  magic := leBytes ((buf.drop 0).take 8)
  version := leBytes ((buf.drop 8).take 1)
  createdAt := leBytes ((buf.drop 9).take 8)
  withdrawnAmount := leBytes ((buf.drop 17).take 8)
  canceledAt := leBytes ((buf.drop 25).take 8)
  endTime := leBytes ((buf.drop 33).take 8)
  lastWithdrawnAt := leBytes ((buf.drop 41).take 8)
  sender := ⟨(buf.drop 49).take 32⟩
  senderTokens := ⟨(buf.drop 81).take 32⟩
  recipient := ⟨(buf.drop 113).take 32⟩
  recipientTokens := ⟨(buf.drop 145).take 32⟩
  mint := ⟨(buf.drop 177).take 32⟩
  escrowTokens := ⟨(buf.drop 209).take 32⟩
  streamdaoTreasury := ⟨(buf.drop 241).take 32⟩
  streamdaoTreasuryTokens := ⟨(buf.drop 273).take 32⟩
  streamdaoFeeTotal := leBytes ((buf.drop 305).take 8)
  streamdaoFeeWithdrawn := leBytes ((buf.drop 313).take 8)
  streamdaoFeePercent := leBytes ((buf.drop 321).take 4)
  partner := ⟨(buf.drop 325).take 32⟩
  partnerTokens := ⟨(buf.drop 357).take 32⟩
  partnerFeeTotal := leBytes ((buf.drop 389).take 8)
  partnerFeeWithdrawn := leBytes ((buf.drop 397).take 8)
  partnerFeePercent := leBytes ((buf.drop 405).take 4)
  start := leBytes ((buf.drop 409).take 8)
  depositedAmount := leBytes ((buf.drop 417).take 8)
  period := leBytes ((buf.drop 425).take 8)
  amountPerPeriod := leBytes ((buf.drop 433).take 8)
  cliff := leBytes ((buf.drop 441).take 8)
  cliffAmount := leBytes ((buf.drop 449).take 8)
  cancelableBySender := jsBool [buf.getD 457 0]
  cancelableByRecipient := jsBool [buf.getD 458 0]
  automaticWithdrawal := jsBool [buf.getD 459 0]
  transferableBySender := jsBool [buf.getD 460 0]
  transferableByRecipient := jsBool [buf.getD 461 0]
  canTopup := jsBool [buf.getD 462 0]
  name := (buf.drop 463).take 64
  withdrawalFrequency := leBytes ((buf.drop 527).take 8)

lemma structDecode_layout_eq (buf : List Nat) (h : 463 ≤ buf.length) :
    structDecode TokenStreamDataLayout buf 0 =
      some [("magic", (buf.drop 0).take 8),
        ("version", (buf.drop 8).take 1),
        ("created_at", (buf.drop 9).take 8),
        ("withdrawn_amount", (buf.drop 17).take 8),
        ("canceled_at", (buf.drop 25).take 8),
        ("end_time", (buf.drop 33).take 8),
        ("last_withdrawn_at", (buf.drop 41).take 8),
        ("sender", (buf.drop 49).take 32),
        ("sender_tokens", (buf.drop 81).take 32),
        ("recipient", (buf.drop 113).take 32),
        ("recipient_tokens", (buf.drop 145).take 32),
        ("mint", (buf.drop 177).take 32),
        ("escrow_tokens", (buf.drop 209).take 32),
        ("streamdao_treasury", (buf.drop 241).take 32),
        ("streamdao_treasury_tokens", (buf.drop 273).take 32),
        ("streamdao_fee_total", (buf.drop 305).take 8),
        ("streamdao_fee_withdrawn", (buf.drop 313).take 8),
        ("streamdao_fee_percent", (buf.drop 321).take 4),
        ("partner", (buf.drop 325).take 32),
        ("partner_tokens", (buf.drop 357).take 32),
        ("partner_fee_total", (buf.drop 389).take 8),
        ("partner_fee_withdrawn", (buf.drop 397).take 8),
        ("partner_fee_percent", (buf.drop 405).take 4),
        ("start_time", (buf.drop 409).take 8),
        ("net_deposited_amount", (buf.drop 417).take 8),
        ("period", (buf.drop 425).take 8),
        ("amount_per_period", (buf.drop 433).take 8),
        ("cliff", (buf.drop 441).take 8),
        ("cliff_amount", (buf.drop 449).take 8),
        ("cancelable_by_sender", [buf.getD 457 0]),
        ("cancelable_by_recipient", [buf.getD 458 0]),
        ("automatic_withdrawal", [buf.getD 459 0]),
        ("transferable_by_sender", [buf.getD 460 0]),
        ("transferable_by_recipient", [buf.getD 461 0]),
        ("can_topup", [buf.getD 462 0]),
        ("stream_name", (buf.drop 463).take 64),
        ("withdraw_frequency", (buf.drop 527).take 8)] := by
  have e457 : buf[457]? = some (buf.getD 457 0) := by
    rw [List.getElem?_eq_getElem (by omega), List.getD_eq_getElem _ _ (by omega)]
  have e458 : buf[458]? = some (buf.getD 458 0) := by
    rw [List.getElem?_eq_getElem (by omega), List.getD_eq_getElem _ _ (by omega)]
  have e459 : buf[459]? = some (buf.getD 459 0) := by
    rw [List.getElem?_eq_getElem (by omega), List.getD_eq_getElem _ _ (by omega)]
  have e460 : buf[460]? = some (buf.getD 460 0) := by
    rw [List.getElem?_eq_getElem (by omega), List.getD_eq_getElem _ _ (by omega)]
  have e461 : buf[461]? = some (buf.getD 461 0) := by
    rw [List.getElem?_eq_getElem (by omega), List.getD_eq_getElem _ _ (by omega)]
  have e462 : buf[462]? = some (buf.getD 462 0) := by
    rw [List.getElem?_eq_getElem (by omega), List.getD_eq_getElem _ _ (by omega)]
  simp only [TokenStreamDataLayout, structDecode, e457, e458, e459, e460, e461, e462,
    Option.map_some']

/-- On a buffer long enough to cover the six bounds-checked flag bytes,
`decodeStream` succeeds and reads every field at its layout offset. -/
lemma decodeStream_eq (buf : List Nat) (h : 463 ≤ buf.length) :
    decodeStream buf = some (decodedOf buf) := by
  unfold decodeStream
  rw [structDecode_layout_eq buf h]
  rfl

lemma isSome_structDecode_blob (n : Nat) (p : String) (fs : List LayoutField)
    (b : List Nat) (o : Nat) :
    (structDecode (.blob n p :: fs) b o).isSome = (structDecode fs b (o + n)).isSome := by
  simp [structDecode]

lemma isSome_structDecode_u8 (p : String) (fs : List LayoutField)
    (b : List Nat) (o : Nat) :
    (structDecode (.u8 p :: fs) b o).isSome
      = ((b[o]?).isSome && (structDecode fs b (o + 1)).isSome) := by
  cases h : b[o]? <;> simp [structDecode, h]

lemma isSome_getElem_iff (l : List Nat) (i : Nat) :
    (l[i]?).isSome = true ↔ i < l.length := by
  rw [Option.isSome_iff_exists]
  constructor
  · rintro ⟨a, ha⟩
    exact (List.getElem?_eq_some.mp ha).1
  · intro h
    exact ⟨l[i], List.getElem?_eq_getElem h⟩

lemma isSome_structDecode_nil (b : List Nat) (o : Nat) :
    (structDecode [] b o).isSome = true := rfl

lemma structDecode_layout_isSome (buf : List Nat) :
    (structDecode TokenStreamDataLayout buf 0).isSome ↔ 463 ≤ buf.length := by
  simp only [TokenStreamDataLayout, isSome_structDecode_blob, isSome_structDecode_u8,
    isSome_structDecode_nil, Bool.and_true, Bool.and_eq_true, isSome_getElem_iff]
  omega

lemma structDecode_layout_none (buf : List Nat) (h : buf.length < 463) :
    structDecode TokenStreamDataLayout buf 0 = none := by
  rw [← Option.not_isSome_iff_eq_none, structDecode_layout_isSome]
  omega

lemma decodeStream_none (buf : List Nat) (h : buf.length < 463) :
    decodeStream buf = none := by
  unfold decodeStream
  rw [structDecode_layout_none buf h]

/-- `decodeStream` succeeds exactly on buffers of length at least 463:
the six `u8` flag reads at offsets 457 to 462 are the only
bounds-checked reads, all blob fields being clamped slices. -/
lemma decodeStream_isSome_iff (buf : List Nat) :
    (decodeStream buf).isSome ↔ 463 ≤ buf.length := by
  constructor
  · intro hs
    by_contra hlt
    rw [decodeStream_none buf (by omega)] at hs
    simp at hs
  · intro h
    rw [decodeStream_eq buf h]
    rfl

/-- Truncation toward zero, as bn.js `_initNumber` applies to a
non-integral JavaScript number through its bitwise word extraction. -/
def jsTrunc (x : ℚ) : ℤ := if 0 ≤ x then ⌊x⌋ else ⌈x⌉

/-- bn.js `new BN(number)` for a JavaScript number argument: the
constructor asserts `|number| < 2^53` (throwing otherwise, modelled by
`none`) and truncates any fractional part toward zero. -/
def bnFromNumber (x : ℚ) : Option ℤ :=
  if |x| < 2 ^ 53 then some (jsTrunc x) else none

/-- bn.js `toNumber()`: exact for values of at most 53 bits, asserts
(throws) otherwise. -/
def toNumberOpt (n : ℤ) : Option ℤ :=
  if |n| < 2 ^ 53 then some n else none

/-- `getBN` from utils.ts: `value > (2 ** 53 - 1) / 10 ** decimals ?
new BN(value).mul(new BN(10 ** decimals)) : new BN(value * 10 **
decimals)`.  JavaScript numbers are modelled by exact rationals. -/
def getBN (value : ℚ) (decimals : ℕ) : Option ℤ :=
  if ((2 : ℚ) ^ 53 - 1) / 10 ^ decimals < value then
    (bnFromNumber value).bind (fun v =>
      (bnFromNumber ((10 : ℚ) ^ decimals)).map (fun p => v * p))
  else bnFromNumber (value * 10 ^ decimals)

/-- `getNumberFromBN` from utils.ts: `value.gt(new BN(2 ** 53 - 1)) ?
value.div(new BN(10 ** decimals)).toNumber() : value.toNumber() / 10 **
decimals`.  bn.js `div` truncates toward zero. -/
def getNumberFromBN (value : ℤ) (decimals : ℕ) : Option ℚ :=
  if (2 : ℤ) ^ 53 - 1 < value then
    (bnFromNumber ((10 : ℚ) ^ decimals)).bind (fun p =>
      (toNumberOpt (Int.tdiv value p)).map (fun n : ℤ => (n : ℚ)))
  else (toNumberOpt value).map (fun n : ℤ => (n : ℚ) / 10 ^ decimals)

/-- The display-shaped `Stream` entity from types.ts, produced by
`formatDecodedStream`: keys are rendered with `toBase58()` (injective;
kept here as raw bytes), several integer fields are converted to native
numbers. -/
structure Stream where
  magic : ℤ
  version : ℤ
  createdAt : ℤ
  withdrawnAmount : ℤ
  canceledAt : ℤ
  endTime : ℤ
  lastWithdrawnAt : ℤ
  sender : List Nat
  senderTokens : List Nat
  recipient : List Nat
  recipientTokens : List Nat
  mint : List Nat
  escrowTokens : List Nat
  streamdaoTreasury : List Nat
  streamdaoTreasuryTokens : List Nat
  streamdaoFeeTotal : ℤ
  streamdaoFeeWithdrawn : ℤ
  streamdaoFeePercent : ℤ
  partnerFeeTotal : ℤ
  partnerFeeWithdrawn : ℤ
  partnerFeePercent : ℤ
  partner : List Nat
  partnerTokens : List Nat
  start : ℤ
  depositedAmount : ℤ
  period : ℤ
  amountPerPeriod : ℤ
  cliff : ℤ
  cliffAmount : ℤ
  cancelableBySender : Bool
  cancelableByRecipient : Bool
  automaticWithdrawal : Bool
  transferableBySender : Bool
  transferableByRecipient : Bool
  canTopup : Bool
  name : List Nat
  withdrawalFrequency : ℤ

/-- `formatDecodedStream` from utils.ts: converts the magic, version,
timestamp, period, cliff, withdrawal-frequency and fee-percent fields
with bn.js `toNumber()` (which throws beyond 53 bits, modelled by
`toNumberOpt`), keeps the amount fields as big numbers, and renders the
keys with `toBase58()`. -/
def formatDecodedStream (s : DecodedStream) : Option Stream := do
  let magic ← toNumberOpt s.magic
  let version ← toNumberOpt s.version
  let createdAt ← toNumberOpt s.createdAt
  let canceledAt ← toNumberOpt s.canceledAt
  let endTime ← toNumberOpt s.endTime
  let lastWithdrawnAt ← toNumberOpt s.lastWithdrawnAt
  let streamdaoFeePercent ← toNumberOpt s.streamdaoFeePercent
  let partnerFeePercent ← toNumberOpt s.partnerFeePercent
  let start ← toNumberOpt s.start
  let period ← toNumberOpt s.period
  let cliff ← toNumberOpt s.cliff
  let withdrawalFrequency ← toNumberOpt s.withdrawalFrequency
  pure {
    magic := magic
    version := version
    createdAt := createdAt
    withdrawnAmount := s.withdrawnAmount
    canceledAt := canceledAt
    endTime := endTime
    lastWithdrawnAt := lastWithdrawnAt
    sender := s.sender.bytes
    senderTokens := s.senderTokens.bytes
    recipient := s.recipient.bytes
    recipientTokens := s.recipientTokens.bytes
    mint := s.mint.bytes
    escrowTokens := s.escrowTokens.bytes
    streamdaoTreasury := s.streamdaoTreasury.bytes
    streamdaoTreasuryTokens := s.streamdaoTreasuryTokens.bytes
    streamdaoFeeTotal := s.streamdaoFeeTotal
    streamdaoFeeWithdrawn := s.streamdaoFeeWithdrawn
    streamdaoFeePercent := streamdaoFeePercent
    partnerFeeTotal := s.partnerFeeTotal
    partnerFeeWithdrawn := s.partnerFeeWithdrawn
    partnerFeePercent := partnerFeePercent
    partner := s.partner.bytes
    partnerTokens := s.partnerTokens.bytes
    start := start
    depositedAmount := s.depositedAmount
    period := period
    amountPerPeriod := s.amountPerPeriod
    cliff := cliff
    cliffAmount := s.cliffAmount
    cancelableBySender := s.cancelableBySender
    cancelableByRecipient := s.cancelableByRecipient
    automaticWithdrawal := s.automaticWithdrawal
    transferableBySender := s.transferableBySender
    transferableByRecipient := s.transferableByRecipient
    canTopup := s.canTopup
    name := s.name
    withdrawalFrequency := withdrawalFrequency }

/-- UTF-8 encoding of one Unicode code point, as `TextEncoder.encode`
produces for a single character. -/
def utf8EncodeChar (c : Char) : List Nat :=
  let n := c.toNat
  if n < 128 then [n]
  else if n < 2048 then [192 + n / 64, 128 + n % 64]
  else if n < 65536 then [224 + n / 4096, 128 + n / 64 % 64, 128 + n % 64]
  else [240 + n / 262144, 128 + n / 4096 % 64, 128 + n / 64 % 64, 128 + n % 64]

/-- The `characters.every` accumulation loop of
`formatStringToBytesArray` (sdk.ts): push the UTF-8 bytes of each
character only while the 64-byte budget is kept; `every` short-circuits
at the first rejected character. -/
def formatLoop : List Char → List Nat → List Nat
  | [], acc => acc
  | c :: cs, acc =>
    if 64 < acc.length then acc
    else if 64 < acc.length + (utf8EncodeChar c).length then acc
    else formatLoop cs (acc ++ utf8EncodeChar c)

/-- `formatStringToBytesArray` from sdk.ts: iterate the text by Unicode
code point, accumulate UTF-8 bytes within the 64-byte budget, then
zero-fill up to 64 entries (the source wraps every byte in
`new BN(elem)`; the byte values are kept directly here). -/
def formatStringToBytesArray (text : String) : List Nat :=
  let utf8EncodedBytes := formatLoop text.data []
  utf8EncodedBytes ++ List.replicate (64 - utf8EncodedBytes.length) 0

/-- The bounded bump search over an explicit list of bump candidates. -/
def pdaTry (isOffCurve : List Nat → Bool) (hashFn : List Nat → List Nat)
    (seeds programId : List Nat) : List Nat → Option (List Nat × Nat)
  | [] => none
  | bump :: rest =>
    if isOffCurve (hashFn (seeds ++ [bump] ++ programId)) then
      some (hashFn (seeds ++ [bump] ++ programId), bump)
    else pdaTry isOffCurve hashFn seeds programId rest

/-- Modelled from the spec: the program-derived-address search of §4.3.
`Stream.create` (sdk.ts) only calls the external
`web3.PublicKey.findProgramAddress`, whose body is not under src, so the
derivation is modelled from the spec's words: hash the seeds together
with a bump and the program's namespace identifier (`hashFn` keeps the
seed-hash opaque), retry with an incrementing bump value, canonical
upper bound 256 attempts, until the candidate is off-curve (`isOffCurve`
keeps the curve test opaque); `none` stands for the DerivationError. -/
def findProgramAddressModel (isOffCurve : List Nat → Bool)
    (hashFn : List Nat → List Nat) (seeds programId : List Nat) :
    Option (List Nat × Nat) :=
  pdaTry isOffCurve hashFn seeds programId (List.range 256)

/-- `Buffer.from("strm")`, the fixed textual seed of `Stream.create`. -/
def strmSeed : List Nat := [115, 116, 114, 109]

/-- The seed list `[Buffer.from("strm"), metadata.publicKey.toBuffer()]`
of `Stream.create`, concatenated. -/
def escrowSeeds (metadataId : List Nat) : List Nat := strmSeed ++ metadataId

lemma take_one_drop (l : List Nat) (n : Nat) (h : n < l.length) :
    (l.drop n).take 1 = [l.getD n 0] := by
  rw [List.drop_eq_getElem_cons h, List.getD_eq_getElem _ _ h]
  rfl

/-- Claim C1: in the decode layout the sender field begins at byte 49
and the recipient field at byte 113, the standalone filter-offset
constants `STREAM_STRUCT_OFFSET_SENDER` and
`STREAM_STRUCT_OFFSET_RECIPIENT` equal exactly those layout offsets, and
for every buffer of length at least 535 the decoded sender identifier is
the 32 bytes starting at offset 49 and the decoded recipient identifier
the 32 bytes starting at offset 113. -/
theorem claim_C1 :
    offsetOf TokenStreamDataLayout "sender" = some 49
    ∧ offsetOf TokenStreamDataLayout "recipient" = some 113
    ∧ STREAM_STRUCT_OFFSET_SENDER = 49
    ∧ STREAM_STRUCT_OFFSET_RECIPIENT = 113
    ∧ ∀ buf : List Nat, 535 ≤ buf.length →
        (decodeStream buf).map DecodedStream.sender = some ⟨(buf.drop 49).take 32⟩
        ∧ (decodeStream buf).map DecodedStream.recipient = some ⟨(buf.drop 113).take 32⟩ := by
  refine ⟨by decide, by decide, rfl, rfl, ?_⟩
  intro buf h
  rw [decodeStream_eq buf (by omega)]
  exact ⟨rfl, rfl⟩

/-- Witness for C1 at a concrete 535-byte buffer. -/
theorem claim_C1_witness :
    (decodeStream (List.replicate 535 0)).map DecodedStream.sender
        = some ⟨((List.replicate 535 0).drop 49).take 32⟩
    ∧ (decodeStream (List.replicate 535 0)).map DecodedStream.recipient
        = some ⟨((List.replicate 535 0).drop 113).take 32⟩ :=
  claim_C1.2.2.2.2 (List.replicate 535 0) (by simp only [List.length_replicate]; omega)

/-- Claim C2: the widths of the layout's fields sum to exactly 535, and
for every buffer of length at least 535 decode reads each field at the
fixed offset obtained by summing the widths of the preceding fields,
interpreting every multi-byte integer as unsigned little-endian. -/
theorem claim_C2 :
    (TokenStreamDataLayout.map LayoutField.span).sum = 535
    ∧ ∀ buf : List Nat, 535 ≤ buf.length →
      (decodeStream buf).map DecodedStream.magic = some (leBytes ((buf.drop 0).take 8))
      ∧ (decodeStream buf).map DecodedStream.version = some (leBytes ((buf.drop 8).take 1))
      ∧ (decodeStream buf).map DecodedStream.createdAt = some (leBytes ((buf.drop 9).take 8))
      ∧ (decodeStream buf).map DecodedStream.withdrawnAmount = some (leBytes ((buf.drop 17).take 8))
      ∧ (decodeStream buf).map DecodedStream.canceledAt = some (leBytes ((buf.drop 25).take 8))
      ∧ (decodeStream buf).map DecodedStream.endTime = some (leBytes ((buf.drop 33).take 8))
      ∧ (decodeStream buf).map DecodedStream.lastWithdrawnAt = some (leBytes ((buf.drop 41).take 8))
      ∧ (decodeStream buf).map DecodedStream.sender = some ⟨(buf.drop 49).take 32⟩
      ∧ (decodeStream buf).map DecodedStream.senderTokens = some ⟨(buf.drop 81).take 32⟩
      ∧ (decodeStream buf).map DecodedStream.recipient = some ⟨(buf.drop 113).take 32⟩
      ∧ (decodeStream buf).map DecodedStream.recipientTokens = some ⟨(buf.drop 145).take 32⟩
      ∧ (decodeStream buf).map DecodedStream.mint = some ⟨(buf.drop 177).take 32⟩
      ∧ (decodeStream buf).map DecodedStream.escrowTokens = some ⟨(buf.drop 209).take 32⟩
      ∧ (decodeStream buf).map DecodedStream.streamdaoTreasury = some ⟨(buf.drop 241).take 32⟩
      ∧ (decodeStream buf).map DecodedStream.streamdaoTreasuryTokens = some ⟨(buf.drop 273).take 32⟩
      ∧ (decodeStream buf).map DecodedStream.streamdaoFeeTotal = some (leBytes ((buf.drop 305).take 8))
      ∧ (decodeStream buf).map DecodedStream.streamdaoFeeWithdrawn = some (leBytes ((buf.drop 313).take 8))
      ∧ (decodeStream buf).map DecodedStream.streamdaoFeePercent = some (leBytes ((buf.drop 321).take 4))
      ∧ (decodeStream buf).map DecodedStream.partner = some ⟨(buf.drop 325).take 32⟩
      ∧ (decodeStream buf).map DecodedStream.partnerTokens = some ⟨(buf.drop 357).take 32⟩
      ∧ (decodeStream buf).map DecodedStream.partnerFeeTotal = some (leBytes ((buf.drop 389).take 8))
      ∧ (decodeStream buf).map DecodedStream.partnerFeeWithdrawn = some (leBytes ((buf.drop 397).take 8))
      ∧ (decodeStream buf).map DecodedStream.partnerFeePercent = some (leBytes ((buf.drop 405).take 4))
      ∧ (decodeStream buf).map DecodedStream.start = some (leBytes ((buf.drop 409).take 8))
      ∧ (decodeStream buf).map DecodedStream.depositedAmount = some (leBytes ((buf.drop 417).take 8))
      ∧ (decodeStream buf).map DecodedStream.period = some (leBytes ((buf.drop 425).take 8))
      ∧ (decodeStream buf).map DecodedStream.amountPerPeriod = some (leBytes ((buf.drop 433).take 8))
      ∧ (decodeStream buf).map DecodedStream.cliff = some (leBytes ((buf.drop 441).take 8))
      ∧ (decodeStream buf).map DecodedStream.cliffAmount = some (leBytes ((buf.drop 449).take 8))
      ∧ (decodeStream buf).map DecodedStream.cancelableBySender = some (jsBool ((buf.drop 457).take 1))
      ∧ (decodeStream buf).map DecodedStream.cancelableByRecipient = some (jsBool ((buf.drop 458).take 1))
      ∧ (decodeStream buf).map DecodedStream.automaticWithdrawal = some (jsBool ((buf.drop 459).take 1))
      ∧ (decodeStream buf).map DecodedStream.transferableBySender = some (jsBool ((buf.drop 460).take 1))
      ∧ (decodeStream buf).map DecodedStream.transferableByRecipient = some (jsBool ((buf.drop 461).take 1))
      ∧ (decodeStream buf).map DecodedStream.canTopup = some (jsBool ((buf.drop 462).take 1))
      ∧ (decodeStream buf).map DecodedStream.name = some ((buf.drop 463).take 64)
      ∧ (decodeStream buf).map DecodedStream.withdrawalFrequency = some (leBytes ((buf.drop 527).take 8)) := by
  refine ⟨by decide, ?_⟩
  intro buf h
  rw [decodeStream_eq buf (by omega)]
  simp only [Option.map_some', take_one_drop buf 457 (by omega),
    take_one_drop buf 458 (by omega), take_one_drop buf 459 (by omega),
    take_one_drop buf 460 (by omega), take_one_drop buf 461 (by omega),
    take_one_drop buf 462 (by omega)]
  refine ⟨rfl, rfl, rfl, rfl, rfl, rfl, rfl, rfl, rfl, rfl, rfl, rfl, rfl,
    rfl, rfl, rfl, rfl, rfl, rfl, rfl, rfl, rfl, rfl, rfl, rfl, rfl, rfl,
    rfl, rfl, rfl, rfl, rfl, rfl, rfl, rfl, rfl, rfl⟩

/-- Witness for C2 at a concrete 535-byte buffer (the magic, sender and
withdrawal-frequency projections of the instantiated claim). -/
theorem claim_C2_witness :
    (decodeStream (List.replicate 535 0)).map DecodedStream.magic
        = some (leBytes (((List.replicate 535 0).drop 0).take 8))
    ∧ (decodeStream (List.replicate 535 0)).map DecodedStream.sender
        = some ⟨((List.replicate 535 0).drop 49).take 32⟩
    ∧ (decodeStream (List.replicate 535 0)).map DecodedStream.withdrawalFrequency
        = some (leBytes (((List.replicate 535 0).drop 527).take 8)) := by
  have h := claim_C2.2 (List.replicate 535 0) (by simp only [List.length_replicate]; omega)
  exact ⟨h.1, h.2.2.2.2.2.2.2.1, h.2.2.2.2.2.2.2.2.2.2.2.2.2.2.2.2.2.2.2.2.2.2.2.2.2.2.2.2.2.2.2.2.2.2.2.2⟩

/-- Claim C8 counterexample: a 534-byte buffer decodes successfully,
refuting that decode fails for every input shorter than 535 bytes. -/
theorem claim_C8_counterexample :
    (decodeStream (List.replicate 534 0)).isSome = true := by
  rw [decodeStream_eq (List.replicate 534 0) (by simp only [List.length_replicate]; omega)]
  rfl

/-- Claim C8 (amended): decode succeeds exactly on buffers of length at
least 463 — the only bounds-checked reads are the six one-byte flag
reads at offsets 457..462, every blob field being a clamped slice — so
it succeeds on every buffer of length at least 535, but also on lengths
463..534; below 463 it raises synchronously (a RangeError from the flag
read; there is no dedicated DecodeError and no length-535 check). -/
theorem claim_C8 (buf : List Nat) :
    (decodeStream buf).isSome = true ↔ 463 ≤ buf.length :=
  decodeStream_isSome_iff buf

/-- Witness for C8 at a concrete 463-byte buffer. -/
theorem claim_C8_witness :
    (decodeStream (List.replicate 463 0)).isSome = true :=
  (claim_C8 (List.replicate 463 0)).mpr (by simp only [List.length_replicate]; omega)

/-- A 535-byte buffer whose `created_at` field (offset 9, 8 bytes,
little-endian) holds 2^53. -/
def bufWithBigCreatedAt : List Nat :=
  List.replicate 9 0 ++ [0, 0, 0, 0, 0, 0, 32, 0] ++ List.replicate 518 0

set_option maxRecDepth 100000 in
/-- Claim C10: the display-formatting step is partial even on validly
decoded 535-byte records — on a record whose `created_at` holds 2^53
(which exceeds 2^53 - 1), `decodeStream` succeeds but
`formatDecodedStream` fails on the `toNumber()` conversion. -/
theorem claim_C10 :
    bufWithBigCreatedAt.length = 535
    ∧ (decodeStream bufWithBigCreatedAt).isSome = true
    ∧ (decodeStream bufWithBigCreatedAt).map DecodedStream.createdAt = some (2 ^ 53)
    ∧ ((decodeStream bufWithBigCreatedAt).bind formatDecodedStream).isNone = true := by
  decide

lemma jsTrunc_intCast (n : ℤ) : jsTrunc (n : ℚ) = n := by
  unfold jsTrunc
  split <;> simp

lemma abs_intCast_lt (n : ℤ) (h : |n| < 2 ^ 53) : |(n : ℚ)| < 2 ^ 53 := by
  rw [← Int.cast_abs]
  exact_mod_cast h

lemma bnFromNumber_eq_some (x : ℚ) (h : |x| < 2 ^ 53) :
    bnFromNumber x = some (jsTrunc x) := by
  unfold bnFromNumber
  rw [if_pos h]

lemma bnFromNumber_intCast (n : ℤ) (h : |n| < 2 ^ 53) :
    bnFromNumber (n : ℚ) = some n := by
  rw [bnFromNumber_eq_some _ (abs_intCast_lt n h), jsTrunc_intCast]

lemma toNumberOpt_eq_some (n : ℤ) (h : |n| < 2 ^ 53) :
    toNumberOpt n = some n := by
  unfold toNumberOpt
  rw [if_pos h]

lemma abs_pow10_lt (d : ℕ) (hd : d ≤ 15) : |(10 : ℤ) ^ d| < 2 ^ 53 := by
  rw [abs_of_nonneg (by positivity)]
  calc (10 : ℤ) ^ d ≤ 10 ^ 15 := pow_le_pow_right (by norm_num) hd
    _ < 2 ^ 53 := by norm_num

lemma bnFromNumber_pow10 (d : ℕ) (hd : d ≤ 15) :
    bnFromNumber ((10 : ℚ) ^ d) = some ((10 : ℤ) ^ d) := by
  have h : ((10 : ℚ) ^ d) = (((10 : ℤ) ^ d : ℤ) : ℚ) := by push_cast; ring
  rw [h, bnFromNumber_intCast _ (abs_pow10_lt d hd)]

lemma getBN_two_pow53_zero : getBN ((2 : ℚ) ^ 53) 0 = none := by
  unfold getBN
  rw [if_pos (by norm_num)]
  unfold bnFromNumber
  rw [if_neg (by rw [abs_of_nonneg (by positivity)]; exact lt_irrefl _)]
  rfl

/-- Claim C4 counterexample: `getBN` raises for `displayValue = 2^53`,
`decimals = 0` — the bn.js constructor's 53-bit assertion fails — so the
amount scaler is not a total function (`none` models the thrown
assertion). -/
theorem claim_C4_counterexample : getBN ((2 : ℚ) ^ 53) 0 = none :=
  getBN_two_pow53_zero

lemma formatLoop_length_le : ∀ (cs : List Char) (acc : List Nat),
    acc.length ≤ 64 → (formatLoop cs acc).length ≤ 64 := by
  intro cs
  induction cs with
  | nil => intro acc h; simpa [formatLoop] using h
  | cons c cs ih =>
    intro acc h
    rw [formatLoop]
    by_cases h1 : 64 < acc.length
    · rw [if_pos h1]; exact h
    · rw [if_neg h1]
      by_cases h2 : 64 < acc.length + (utf8EncodeChar c).length
      · rw [if_pos h2]; exact h
      · rw [if_neg h2]
        exact ih (acc ++ utf8EncodeChar c) (by rw [List.length_append]; omega)

lemma formatStringToBytesArray_length (text : String) :
    (formatStringToBytesArray text).length = 64 := by
  have h := formatLoop_length_le text.data [] (by simp)
  unfold formatStringToBytesArray
  rw [List.length_append, List.length_replicate]
  omega

/-- Claim C4 (amended): the name encoder is total — it returns a
64-entry array for every input string — while the amount scalers are
total only on the safe range: `getBN` succeeds whenever
`|value| * 10^decimals ≤ 2^53 - 1` and `getNumberFromBN` whenever
`|value| ≤ 2^53 - 1`; outside those ranges the bn.js 53-bit assertion
can throw (see the counterexample). -/
theorem claim_C4 :
    (∀ text : String, (formatStringToBytesArray text).length = 64)
    ∧ (∀ (value : ℚ) (decimals : ℕ), |value| * 10 ^ decimals ≤ 2 ^ 53 - 1 →
        (getBN value decimals).isSome = true)
    ∧ (∀ (value : ℤ) (decimals : ℕ), |value| ≤ 2 ^ 53 - 1 →
        (getNumberFromBN value decimals).isSome = true) := by
  refine ⟨formatStringToBytesArray_length, ?_, ?_⟩
  · intro value d h
    have hpow : (0 : ℚ) < 10 ^ d := by positivity
    have hcond : ¬(((2 : ℚ) ^ 53 - 1) / 10 ^ d < value) := by
      rw [not_lt, le_div_iff hpow]
      calc value * 10 ^ d ≤ |value| * 10 ^ d :=
            mul_le_mul_of_nonneg_right (le_abs_self value) (le_of_lt hpow)
        _ ≤ 2 ^ 53 - 1 := h
    unfold getBN
    rw [if_neg hcond]
    rw [bnFromNumber_eq_some _ ?habs]
    · rfl
    case habs =>
      rw [abs_mul, abs_of_nonneg (le_of_lt hpow)]
      calc |value| * 10 ^ d ≤ 2 ^ 53 - 1 := h
        _ < 2 ^ 53 := by norm_num
  · intro v d h
    unfold getNumberFromBN
    rw [if_neg (not_lt.mpr (le_trans (le_abs_self v) h))]
    rw [toNumberOpt_eq_some v (lt_of_le_of_lt h (by norm_num))]
    rfl

/-- Witness for C4 at concrete safe inputs. -/
theorem claim_C4_witness :
    (formatStringToBytesArray (String.mk ['a'])).length = 64
    ∧ (getBN (3 / 2 : ℚ) 6).isSome = true
    ∧ (getNumberFromBN 1500000 6).isSome = true :=
  ⟨claim_C4.1 (String.mk ['a']),
   claim_C4.2.1 (3 / 2) 6 (by rw [abs_of_nonneg (by norm_num)]; norm_num),
   claim_C4.2.2 1500000 6 (by rw [abs_of_nonneg (by norm_num)]; norm_num)⟩

/-- Claim C5 counterexample: at `displayValue = 2^53`, `decimals = 0`
the product exceeds `2^53 - 1`, but `getBN` does not return
`trunc(displayValue) * 10^0 = 2^53` — it raises (the bn.js constructor
asserts on `2^53`). -/
theorem claim_C5_counterexample :
    getBN ((2 : ℚ) ^ 53) 0 ≠ some ((2 : ℤ) ^ 53 * 10 ^ 0) := by
  rw [getBN_two_pow53_zero]
  simp

/-- Claim C5 (amended): for every `displayValue` with
`|displayValue| < 2^53` and `decimals ≤ 15` whose product
`displayValue * 10^decimals` exceeds `2^53 - 1`, `getBN` first truncates
`displayValue` to its integer part (toward zero) and then multiplies by
`10^decimals` in exact integer arithmetic; for larger `displayValue` or
`decimals` the bn.js constructor asserts instead (see the
counterexample). -/
theorem claim_C5 (value : ℚ) (decimals : ℕ)
    (hv : |value| < 2 ^ 53) (hd : decimals ≤ 15)
    (hbig : (2 : ℚ) ^ 53 - 1 < value * 10 ^ decimals) :
    getBN value decimals = some (jsTrunc value * 10 ^ decimals) := by
  have hpow : (0 : ℚ) < 10 ^ decimals := by positivity
  unfold getBN
  rw [if_pos (by rw [div_lt_iff hpow]; exact hbig)]
  rw [bnFromNumber_eq_some value hv]
  simp only [Option.some_bind]
  rw [bnFromNumber_pow10 decimals hd]
  simp only [Option.map_some']

/-- Witness for C5 at `displayValue = 10^7`, `decimals = 9`. -/
theorem claim_C5_witness : getBN ((10 : ℚ) ^ 7) 9 = some ((10 : ℤ) ^ 16) := by
  have h := claim_C5 ((10 : ℚ) ^ 7) 9
    (by rw [abs_of_nonneg (by positivity)]; norm_num) (by norm_num) (by norm_num)
  rw [h]
  rw [show ((10 : ℚ) ^ 7) = (((10 : ℤ) ^ 7 : ℤ) : ℚ) by push_cast; ring,
    jsTrunc_intCast]
  norm_num

lemma getNumberFromBN_two_pow53_zero : getNumberFromBN ((2 : ℤ) ^ 53) 0 = none := by
  unfold getNumberFromBN
  rw [if_pos (by norm_num), bnFromNumber_pow10 0 (by norm_num)]
  simp only [Option.some_bind, pow_zero, Int.tdiv_one]
  unfold toNumberOpt
  rw [if_neg (by rw [abs_of_nonneg (by positivity)]; exact lt_irrefl _)]
  rfl

/-- Claim C6 counterexample: at `smallestUnits = 2^53`, `decimals = 0`
the input exceeds `2^53 - 1` but `getNumberFromBN` does not return the
integer quotient `2^53` — the bn.js `toNumber()` 53-bit assertion
throws. -/
theorem claim_C6_counterexample :
    getNumberFromBN ((2 : ℤ) ^ 53) 0 ≠ some (((2 : ℤ) ^ 53 : ℤ) : ℚ) := by
  rw [getNumberFromBN_two_pow53_zero]
  simp

/-- Claim C6 (amended): for nonnegative `smallestUnits` at most
`2^53 - 1`, `getNumberFromBN` returns `smallestUnits / 10^decimals`
exactly; above `2^53 - 1` it returns the truncating integer quotient
only when `decimals ≤ 15` and the quotient is itself at most
`2^53 - 1` — otherwise the bn.js assertions throw (see the
counterexample). -/
theorem claim_C6 (value : ℤ) (decimals : ℕ) (hv : 0 ≤ value) :
    ((2 : ℤ) ^ 53 - 1 < value → decimals ≤ 15 →
        Int.tdiv value (10 ^ decimals) ≤ 2 ^ 53 - 1 →
        getNumberFromBN value decimals
          = some ((Int.tdiv value (10 ^ decimals) : ℤ) : ℚ))
    ∧ (value ≤ 2 ^ 53 - 1 →
        getNumberFromBN value decimals = some ((value : ℚ) / 10 ^ decimals)) := by
  constructor
  · intro hbig hd hq
    unfold getNumberFromBN
    rw [if_pos hbig, bnFromNumber_pow10 decimals hd]
    simp only [Option.some_bind]
    have habs : |Int.tdiv value (10 ^ decimals)| < 2 ^ 53 := by
      rw [abs_of_nonneg (Int.tdiv_nonneg hv (by positivity))]
      exact lt_of_le_of_lt hq (by norm_num)
    rw [toNumberOpt_eq_some _ habs]
    rfl
  · intro hsmall
    unfold getNumberFromBN
    rw [if_neg (not_lt.mpr hsmall)]
    rw [toNumberOpt_eq_some value
      (by rw [abs_of_nonneg hv]; exact lt_of_le_of_lt hsmall (by norm_num))]
    rfl

/-- Witness for C6 at `smallestUnits = 10^16, decimals = 9` (big branch)
and `smallestUnits = 1500000, decimals = 6` (float branch). -/
theorem claim_C6_witness :
    getNumberFromBN ((10 : ℤ) ^ 16) 9
      = some ((Int.tdiv ((10 : ℤ) ^ 16) (10 ^ 9) : ℤ) : ℚ)
    ∧ getNumberFromBN 1500000 6 = some ((1500000 : ℚ) / 10 ^ 6) :=
  ⟨(claim_C6 ((10 : ℤ) ^ 16) 9 (by norm_num)).1 (by norm_num) (by norm_num)
      (by decide),
   (claim_C6 1500000 6 (by norm_num)).2 (by norm_num)⟩

lemma getBN_ten7_nine : getBN ((10 : ℚ) ^ 7) 9 = some ((10 : ℤ) ^ 16) := by
  unfold getBN
  rw [if_pos (by rw [div_lt_iff (by positivity)]; norm_num)]
  rw [bnFromNumber_eq_some _ (by rw [abs_of_nonneg (by positivity)]; norm_num)]
  simp only [Option.some_bind]
  rw [bnFromNumber_pow10 9 (by norm_num)]
  simp only [Option.map_some']
  rw [show ((10 : ℚ) ^ 7) = (((10 : ℤ) ^ 7 : ℤ) : ℚ) by push_cast; ring,
    jsTrunc_intCast]
  norm_num

lemma getNumberFromBN_ten16_nine :
    getNumberFromBN ((10 : ℤ) ^ 16) 9 = some ((10 : ℚ) ^ 7) := by
  unfold getNumberFromBN
  rw [if_pos (by norm_num), bnFromNumber_pow10 9 (by norm_num)]
  simp only [Option.some_bind]
  rw [show Int.tdiv ((10 : ℤ) ^ 16) ((10 : ℤ) ^ 9) = 10 ^ 7 by decide]
  rw [toNumberOpt_eq_some _ (by rw [abs_of_nonneg (by positivity)]; norm_num)]
  simp only [Option.map_some']
  norm_num

lemma getBN_half_zero : getBN (1 / 2 : ℚ) 0 = some 0 := by
  unfold getBN
  rw [if_neg (by norm_num)]
  rw [bnFromNumber_eq_some _ (by rw [abs_of_nonneg (by norm_num)]; norm_num)]
  unfold jsTrunc
  rw [if_pos (by norm_num)]
  norm_num

lemma getNumberFromBN_zero_zero : getNumberFromBN 0 0 = some 0 := by
  unfold getNumberFromBN
  rw [if_neg (by norm_num), toNumberOpt_eq_some 0 (by norm_num)]
  simp

/-- Claim C9 counterexample: at `x = 1/2`, `decimals = 0` every
intermediate magnitude stays far below `2^53 - 1`, yet the round trip
returns 0, not 1/2 — the big-number constructor truncates the
fractional part. -/
theorem claim_C9_counterexample :
    (getBN (1 / 2 : ℚ) 0).bind (fun v => getNumberFromBN v 0)
      ≠ some (1 / 2 : ℚ) := by
  rw [getBN_half_zero]
  simp only [Option.some_bind]
  rw [getNumberFromBN_zero_zero]
  simp only [ne_eq, Option.some.injEq]
  norm_num

/-- Claim C9 (amended): the concrete round trip
`toDisplayValue(toSmallestUnits(10^7, 9), 9) = 10^7` holds, and the
general round trip holds whenever `x * 10^decimals` is an integer of
magnitude at most `2^53 - 1` (if the scaled value has a fractional
part, the big-number truncation loses it even inside the safe range —
see the counterexample). -/
theorem claim_C9 :
    ((getBN ((10 : ℚ) ^ 7) 9).bind (fun v => getNumberFromBN v 9)
      = some ((10 : ℚ) ^ 7))
    ∧ ∀ (x : ℚ) (decimals : ℕ) (n : ℤ), x * 10 ^ decimals = (n : ℚ) →
        |n| ≤ 2 ^ 53 - 1 →
        (getBN x decimals).bind (fun v => getNumberFromBN v decimals)
          = some x := by
  constructor
  · rw [getBN_ten7_nine]
    simp only [Option.some_bind]
    exact getNumberFromBN_ten16_nine
  · intro x d n hxn hn
    have hpow : (0 : ℚ) < 10 ^ d := by positivity
    have hn53 : |n| < 2 ^ 53 := lt_of_le_of_lt hn (by norm_num)
    have hncast : |(n : ℚ)| ≤ 2 ^ 53 - 1 := by
      rw [← Int.cast_abs]
      exact_mod_cast hn
    have hcond : ¬(((2 : ℚ) ^ 53 - 1) / 10 ^ d < x) := by
      rw [not_lt, le_div_iff hpow, hxn]
      exact le_trans (le_abs_self _) hncast
    unfold getBN
    rw [if_neg hcond, hxn, bnFromNumber_intCast n hn53]
    simp only [Option.some_bind]
    unfold getNumberFromBN
    rw [if_neg (not_lt.mpr (abs_le.mp hn).2)]
    rw [toNumberOpt_eq_some n hn53]
    simp only [Option.map_some']
    rw [← hxn, mul_div_cancel_right₀ x (ne_of_gt hpow)]

/-- Witness for C9's general round trip at `x = 3/2`, `decimals = 6`. -/
theorem claim_C9_witness :
    (getBN (3 / 2 : ℚ) 6).bind (fun v => getNumberFromBN v 6)
      = some (3 / 2 : ℚ) :=
  claim_C9.2 (3 / 2) 6 1500000 (by norm_num) (by decide)

/-- The UTF-8 bytes of a character list, concatenated. -/
def utf8Flat (l : List Char) : List Nat := (l.map utf8EncodeChar).join

lemma utf8Flat_cons (c : Char) (cs : List Char) :
    utf8Flat (c :: cs) = utf8EncodeChar c ++ utf8Flat cs := by
  simp [utf8Flat]

lemma formatLoop_spec : ∀ (cs : List Char) (acc : List Nat),
    acc.length ≤ 64 →
    ∃ k, k ≤ cs.length
      ∧ formatLoop cs acc = acc ++ utf8Flat (cs.take k)
      ∧ (formatLoop cs acc).length ≤ 64
      ∧ ∀ hk : k < cs.length,
          64 < (formatLoop cs acc).length
                + (utf8EncodeChar (cs.get ⟨k, hk⟩)).length := by
  intro cs
  induction cs with
  | nil =>
    intro acc hacc
    refine ⟨0, le_refl 0, ?_, ?_, ?_⟩
    · simp [formatLoop, utf8Flat]
    · simpa [formatLoop] using hacc
    · intro hk
      exact absurd hk (by simp)
  | cons c cs ih =>
    intro acc hacc
    by_cases h2 : 64 < acc.length + (utf8EncodeChar c).length
    · refine ⟨0, Nat.zero_le _, ?_, ?_, ?_⟩
      · rw [formatLoop, if_neg (by omega), if_pos h2]
        simp [utf8Flat]
      · rw [formatLoop, if_neg (by omega), if_pos h2]
        exact hacc
      · intro hk
        rw [formatLoop, if_neg (by omega), if_pos h2]
        simpa using h2
    · obtain ⟨k, hk_le, heq, hlen, hstop⟩ :=
        ih (acc ++ utf8EncodeChar c) (by rw [List.length_append]; omega)
      have hloop : formatLoop (c :: cs) acc = formatLoop cs (acc ++ utf8EncodeChar c) := by
        rw [formatLoop, if_neg (by omega), if_neg h2]
      refine ⟨k + 1, by simpa using hk_le, ?_, ?_, ?_⟩
      · rw [hloop, heq, List.take_succ_cons, utf8Flat_cons, List.append_assoc]
      · rw [hloop]
        exact hlen
      · intro hk
        have hk' : k < cs.length := by
          have := hk
          simp only [List.length_cons] at this
          omega
        rw [hloop]
        simpa [List.get_cons_succ] using hstop hk'

lemma utf8EncodeChar_ascii (c : Char) (h : c.toNat < 128) :
    utf8EncodeChar c = [c.toNat] := by
  unfold utf8EncodeChar
  rw [if_pos h]

lemma formatLoop_ascii : ∀ (cs : List Char) (acc : List Nat),
    acc.length ≤ 64 → (∀ c ∈ cs, c.toNat < 128) →
    formatLoop cs acc = acc ++ (cs.take (64 - acc.length)).map Char.toNat := by
  intro cs
  induction cs with
  | nil =>
    intro acc _ _
    simp [formatLoop]
  | cons c cs ih =>
    intro acc hacc hascii
    have hc : c.toNat < 128 := hascii c (by simp)
    rw [formatLoop, utf8EncodeChar_ascii c hc]
    simp only [List.length_singleton]
    by_cases h2 : acc.length = 64
    · rw [if_neg (by omega), if_pos (by omega), h2]
      simp
    · rw [if_neg (by omega), if_neg (by omega)]
      rw [ih (acc ++ [c.toNat]) (by rw [List.length_append]; simp; omega)
        (fun x hx => hascii x (by simp [hx]))]
      rw [show 64 - acc.length = (64 - (acc ++ [c.toNat]).length) + 1 by
        rw [List.length_append]; simp; omega]
      rw [List.take_succ_cons, List.map_cons, List.append_assoc]
      rfl

/-- Claim C7: the name encoder always returns exactly 64 entries; its
kept bytes are the concatenated UTF-8 encodings of a code-point prefix
of the input that fits in 64 bytes, and the first code point past the
cut (if any) would not have fit — so no multi-byte code point is ever
split; and for any 70-character plain-ASCII input the result is exactly
the first 64 input bytes with no padding. -/
theorem claim_C7 :
    (∀ text : String, (formatStringToBytesArray text).length = 64
      ∧ ∃ k, k ≤ text.data.length
          ∧ formatLoop text.data [] = utf8Flat (text.data.take k)
          ∧ (utf8Flat (text.data.take k)).length ≤ 64
          ∧ ∀ hk : k < text.data.length,
              64 < (utf8Flat (text.data.take k)).length
                    + (utf8EncodeChar (text.data.get ⟨k, hk⟩)).length)
    ∧ ∀ text : String, text.data.length = 70 → (∀ c ∈ text.data, c.toNat < 128) →
        formatStringToBytesArray text = (text.data.take 64).map Char.toNat := by
  constructor
  · intro text
    obtain ⟨k, hk_le, heq, hlen, hstop⟩ := formatLoop_spec text.data [] (by simp)
    rw [List.nil_append] at heq
    refine ⟨formatStringToBytesArray_length text, k, hk_le, heq, ?_, ?_⟩
    · rw [← heq]
      exact hlen
    · intro hk
      rw [← heq]
      exact hstop hk
  · intro text hlen70 hascii
    unfold formatStringToBytesArray
    rw [formatLoop_ascii text.data [] (by simp) hascii]
    simp only [List.length_nil, Nat.sub_zero, List.nil_append]
    have hl : ((text.data.take 64).map Char.toNat).length = 64 := by
      rw [List.length_map, List.length_take, hlen70]
      omega
    rw [hl]
    simp

/-- Witness for C7's ASCII conjunct at 70 copies of the letter a. -/
theorem claim_C7_witness :
    formatStringToBytesArray (String.mk (List.replicate 70 'a'))
      = ((List.replicate 70 'a').take 64).map Char.toNat :=
  claim_C7.2 (String.mk (List.replicate 70 'a'))
    (by rw [show (String.mk (List.replicate 70 'a')).data = List.replicate 70 'a'
          from rfl, List.length_replicate])
    (by
      intro c hc
      rw [show (String.mk (List.replicate 70 'a')).data = List.replicate 70 'a'
        from rfl] at hc
      rw [List.eq_of_mem_replicate hc]
      decide)

lemma pdaTry_some_mem (isOffCurve : List Nat → Bool)
    (hashFn : List Nat → List Nat) (seeds pid : List Nat) :
    ∀ (bumps : List Nat) (a : List Nat) (b : Nat),
    pdaTry isOffCurve hashFn seeds pid bumps = some (a, b) →
    b ∈ bumps ∧ isOffCurve a = true := by
  intro bumps
  induction bumps with
  | nil =>
    intro a b h
    exact absurd h (by simp [pdaTry])
  | cons x rest ih =>
    intro a b h
    rw [pdaTry] at h
    by_cases hx : isOffCurve (hashFn (seeds ++ [x] ++ pid)) = true
    · rw [if_pos hx] at h
      simp only [Option.some.injEq, Prod.mk.injEq] at h
      obtain ⟨ha, hb⟩ := h
      subst ha
      subst hb
      exact ⟨by simp, hx⟩
    · rw [if_neg hx] at h
      obtain ⟨hmem, hoc⟩ := ih a b h
      exact ⟨by simp [hmem], hoc⟩

lemma pdaTry_none_iff (isOffCurve : List Nat → Bool)
    (hashFn : List Nat → List Nat) (seeds pid : List Nat) :
    ∀ bumps : List Nat,
    pdaTry isOffCurve hashFn seeds pid bumps = none ↔
      ∀ b ∈ bumps, isOffCurve (hashFn (seeds ++ [b] ++ pid)) = false := by
  intro bumps
  induction bumps with
  | nil => simp [pdaTry]
  | cons x rest ih =>
    rw [pdaTry]
    by_cases hx : isOffCurve (hashFn (seeds ++ [x] ++ pid)) = true
    · rw [if_pos hx]
      constructor
      · intro h
        exact absurd h (by simp)
      · intro hall
        have hfx := hall x (List.mem_cons_self x rest)
        rw [hx] at hfx
        exact absurd hfx (by simp)
    · rw [if_neg hx, ih]
      have hx' : isOffCurve (hashFn (seeds ++ [x] ++ pid)) = false := by
        revert hx
        cases isOffCurve (hashFn (seeds ++ [x] ++ pid)) <;> simp
      constructor
      · intro hall b hb
        rcases List.mem_cons.mp hb with hbx | hbr
        · rw [hbx]
          exact hx'
        · exact hall b hbr
      · intro hall b hb
        exact hall b (List.mem_cons_of_mem x hb)

/-- Claim C3: the program-derived-address search over the fixed "strm"
seed concatenated with the fresh record identifier terminates within the
canonical 256-bump bound for every off-curve test and namespace: a
successful result uses a bump below 256 whose candidate passed the
off-curve test, and it fails with a DerivationError (`none`) exactly
when none of the 256 bumps yields an off-curve candidate — it never
searches beyond the bound. -/
theorem claim_C3 (isOffCurve : List Nat → Bool) (hashFn : List Nat → List Nat)
    (metadataId programId : List Nat) :
    (∀ (a : List Nat) (b : Nat),
        findProgramAddressModel isOffCurve hashFn (escrowSeeds metadataId) programId
          = some (a, b) → b < 256 ∧ isOffCurve a = true)
    ∧ (findProgramAddressModel isOffCurve hashFn (escrowSeeds metadataId) programId
          = none
        ↔ ∀ b < 256,
            isOffCurve (hashFn (escrowSeeds metadataId ++ [b] ++ programId))
              = false) := by
  constructor
  · intro a b h
    obtain ⟨hmem, hoc⟩ := pdaTry_some_mem isOffCurve hashFn _ _ _ a b h
    exact ⟨List.mem_range.mp hmem, hoc⟩
  · rw [findProgramAddressModel, pdaTry_none_iff]
    constructor
    · intro hall b hb
      exact hall b (List.mem_range.mpr hb)
    · intro hall b hb
      exact hall b (List.mem_range.mp hb)

/-- Witness for C3 with the always-off-curve test and identity hash:
the search succeeds at bump 0, inside the bound. -/
theorem claim_C3_witness :
    (0 : Nat) < 256
    ∧ (fun _ : List Nat => true) (escrowSeeds [] ++ [0] ++ ([] : List Nat))
        = true :=
  (claim_C3 (fun _ => true) (fun l => l) [] []).1
    (escrowSeeds [] ++ [0] ++ []) 0 rfl

end StreamSDK
